import Mathlib

/-!
Verification of the batching, deduplication and caching engine of the
spark-js-sdk repository: the Board content chunking (`addContent`), the user
UUID lookup path (`asUUID` / `getUUID` / `fetchUUID` / `recordUUID`), the
avatar URL batcher hooks (`fingerprintRequest`, `didItemFail`) and the
single-flight dedup gate.
-/

namespace SparkSdk

/-- Embedding of lodash `chunk(array, size)` as invoked by `Board.addContent`
(src/unnamed/part_000, line 31): splits the list into consecutive groups of
length `n`, the final group holding the remainder; `chunk` with size `0`
returns the empty list (lodash returns `[]` for sizes below 1). -/
def chunk {α : Type} : List α → Nat → List (List α)
  | _, 0 => []
  | [], _ + 1 => []
  | a :: l, n + 1 => (a :: l).take (n + 1) :: chunk ((a :: l).drop (n + 1)) (n + 1)
termination_by l _ => l.length
decreasing_by simp [List.length_drop]; omega

/-- Embedding of `Board.addContent` (src/unnamed/part_000, lines 29-35): the
contents list is split with `chunk` at `config.numberContentsPerPageForAdd`
and the chunks are dispatched strictly in order (`promiseSeries` resolves each
chunk before continuing with the next); the result lists the dispatched
batches in dispatch order. -/
def addContent {α : Type} (numberContentsPerPageForAdd : Nat) (contents : List α) : List (List α) :=
  chunk contents numberContentsPerPageForAdd

theorem chunk_nil {α : Type} (n : Nat) : chunk ([] : List α) n = [] := by
  cases n <;> simp [chunk]

theorem chunk_cons {α : Type} (a : α) (l : List α) (n : Nat) :
    chunk (a :: l) (n + 1) = (a :: l).take (n + 1) :: chunk ((a :: l).drop (n + 1)) (n + 1) := by
  rw [chunk]

theorem chunk_flatten {α : Type} (l : List α) (m : Nat) (hm : 1 ≤ m) :
    (chunk l m).flatten = l := by
  induction l, m using chunk.induct with
  | case1 l => omega
  | case2 n => simp [chunk]
  | case3 a l n ih =>
    rw [chunk_cons, List.flatten_cons, ih (by omega), List.take_append_drop]

theorem chunk_eq_nil_iff {α : Type} (l : List α) (n : Nat) : chunk l (n + 1) = [] ↔ l = [] := by
  cases l with
  | nil => simp [chunk]
  | cons a t => rw [chunk_cons]; simp

theorem chunk_len_aux (L n : Nat) :
    (L + 1 - (n + 1) + (n + 1) - 1) / (n + 1) + 1 = (L + 1 + (n + 1) - 1) / (n + 1) := by
  rcases le_or_lt (L + 1) (n + 1) with h | h
  · have h1 : L + 1 - (n + 1) + (n + 1) - 1 = n := by omega
    have h2 : L + 1 + (n + 1) - 1 = L + 1 + n := by omega
    rw [h1, h2, Nat.div_eq_of_lt (by omega)]
    exact (Nat.div_eq_of_lt_le (by omega) (by omega)).symm
  · have h1 : L + 1 - (n + 1) + (n + 1) - 1 = L := by omega
    have h2 : L + 1 + (n + 1) - 1 = L + (n + 1) := by omega
    rw [h1, h2, Nat.add_div_right _ (Nat.succ_pos n)]

theorem chunk_length_eq {α : Type} (l : List α) (m : Nat) (hm : 1 ≤ m) :
    (chunk l m).length = (l.length + m - 1) / m := by
  induction l, m using chunk.induct with
  | case1 l => omega
  | case2 n =>
    rw [chunk_nil]
    simp only [List.length_nil]
    rw [Nat.div_eq_of_lt (by omega)]
  | case3 a l n ih =>
    rw [chunk_cons, List.length_cons, ih (by omega), List.length_drop, List.length_cons]
    exact chunk_len_aux l.length n

theorem chunk_mem_bounds {α : Type} (l : List α) (m : Nat) (hm : 1 ≤ m) :
    ∀ b ∈ chunk l m, 1 ≤ b.length ∧ b.length ≤ m := by
  induction l, m using chunk.induct with
  | case1 l => omega
  | case2 n => simp [chunk]
  | case3 a l n ih =>
    intro b hb
    rw [chunk_cons] at hb
    rcases List.mem_cons.mp hb with rfl | hb
    · simp only [List.length_take, List.length_cons]
      omega
    · exact ih (by omega) b hb

theorem chunk_dropLast_full {α : Type} (l : List α) (m : Nat) (hm : 1 ≤ m) :
    ∀ b ∈ (chunk l m).dropLast, b.length = m := by
  induction l, m using chunk.induct with
  | case1 l => omega
  | case2 n => simp [chunk]
  | case3 a l n ih =>
    rw [chunk_cons]
    rcases heq : chunk ((a :: l).drop (n + 1)) (n + 1) with _ | ⟨c, cs⟩
    · simp
    · rw [List.dropLast_cons_of_ne_nil (by simp)]
      intro b hb
      rcases List.mem_cons.mp hb with rfl | hb
      · have hne : (a :: l).drop (n + 1) ≠ [] := by
          intro hcon
          rw [hcon, chunk_nil] at heq
          simp at heq
        have hlen : n + 1 < (a :: l).length := by
          by_contra hcon
          exact hne (List.drop_eq_nil_of_le (by omega))
        rw [List.length_take]
        omega
      · rw [← heq] at hb
        exact ih (by omega) b hb

theorem chunk_small {α : Type} (l : List α) (n : Nat) (hne : l ≠ []) (hle : l.length ≤ n + 1) :
    chunk l (n + 1) = [l] := by
  cases l with
  | nil => exact absurd rfl hne
  | cons a t =>
    rw [chunk_cons, List.take_of_length_le hle, List.drop_eq_nil_of_le hle, chunk_nil]

/-- C3: for every configured maxBatchSize `m ≥ 1`, enqueuing `m + 1` items
produces exactly two dispatched batches, the first being exactly the first
`m` items in enqueue order and the second the remaining item; in general a
list of `n` items is split into `⌈n / m⌉` batches, all of size `m` except a
possibly smaller (but nonempty) last one. -/
theorem addContent_batch_sizes {α : Type} (m : Nat) (hm : 1 ≤ m) (l : List α) :
    (l.length = m + 1 →
      addContent m l = [l.take m, l.drop m] ∧ (l.take m).length = m ∧ (l.drop m).length = 1) ∧
    (addContent m l).length = (l.length + m - 1) / m ∧
    (∀ b ∈ (addContent m l).dropLast, b.length = m) ∧
    (∀ b ∈ addContent m l, 1 ≤ b.length ∧ b.length ≤ m) := by
  refine ⟨?_, chunk_length_eq l m hm, chunk_dropLast_full l m hm, chunk_mem_bounds l m hm⟩
  intro hlen
  refine ⟨?_, ?_, ?_⟩
  · obtain ⟨n, rfl⟩ : ∃ n, m = n + 1 := ⟨m - 1, by omega⟩
    cases l with
    | nil => simp only [List.length_nil] at hlen; omega
    | cons a t =>
      unfold addContent
      rw [chunk_cons]
      have hd : ((a :: t).drop (n + 1)).length = 1 := by
        rw [List.length_drop, hlen]
        omega
      rw [chunk_small _ n (by intro hcon; rw [hcon] at hd; simp at hd) (by omega)]
  · rw [List.length_take]
    omega
  · rw [List.length_drop]
    omega

/-- Witness for C3 at `m = 2` on a three-element list. -/
theorem addContent_batch_sizes_witness :
    addContent 2 ([0, 1, 2] : List Nat) = [[0, 1], [2]] :=
  (((addContent_batch_sizes 2 (by decide) [0, 1, 2]).1) (by decide)).1

/-- C8: within dispatched batches, item order is preserved end-to-end: for
every input list and every positive chunk size, the concatenation of the
dispatched batches in dispatch order equals the original input list. -/
theorem addContent_preserves_order {α : Type} (m : Nat) (hm : 1 ≤ m) (l : List α) :
    (addContent m l).flatten = l :=
  chunk_flatten l m hm

/-- Witness for C8 at `m = 2` on a five-element list. -/
theorem addContent_preserves_order_witness :
    (addContent 2 ([0, 1, 2, 3, 4] : List Nat)).flatten = [0, 1, 2, 3, 4] :=
  addContent_preserves_order 2 (by decide) [0, 1, 2, 3, 4]

/-- Truthiness of an optional JS string field: an absent field (`none`) and
the empty string are falsy, every other string is truthy. -/
def truthyStr : Option String → Bool
  | none => false
  | some s => !(s == "")

/-- A user-identifying JS object as read by `User._extractUUID` and
`User._extractEmailAddress` (src/packages/plugin-user/src/user.js, lines
295-307); only the consulted fields are modelled, `none` meaning absent. -/
structure UserObj where
  entryUUID : Option String
  id : Option String
  email : Option String
  emailAddress : Option String
  entryEmail : Option String

/-- Argument to `User.asUUID` (user.js line 72): a string, a user object, an
array of such arguments, or a nullish (undefined/null) value. -/
inductive UserArg : Type
  | str (s : String)
  | obj (o : UserObj)
  | arr (l : List UserArg)
  | nullish

/-- JS truthiness of `user` in the guard `if (!user)` of `asUUID` (user.js
line 73): objects and arrays are always truthy, a string is falsy exactly
when it is empty. -/
def truthyArg : UserArg → Bool
  | .str s => !(s == "")
  | .obj _ => true
  | .arr _ => true
  | .nullish => false

/-- Embedding of `User._extractUUID` (user.js lines 295-297):
`user.entryUUID || user.id || user`. On a string the field reads are
`undefined`, so the string itself results; on an object whose consulted
fields are all falsy JS falls back to the object, which a regex test coerces
to the string `"[object Object]"`. The array and nullish cases are
unreachable from `asUUID` (arrays and falsy values are handled first). -/
def extractUUID : UserArg → String
  | .str s => s
  | .obj o =>
    if truthyStr o.entryUUID then o.entryUUID.getD ""
    else if truthyStr o.id then o.id.getD ""
    else "[object Object]"
  | .arr _ => ""
  | .nullish => ""

/-- Embedding of `User._extractEmailAddress` (user.js lines 305-307):
`user.email || user.emailAddress || user.entryEmail || user`, with the same
coercion conventions as `extractUUID`. -/
def extractEmailAddress : UserArg → String
  | .str s => s
  | .obj o =>
    if truthyStr o.email then o.email.getD ""
    else if truthyStr o.emailAddress then o.emailAddress.getD ""
    else if truthyStr o.entryEmail then o.entryEmail.getD ""
    else "[object Object]"
  | .arr _ => ""
  | .nullish => ""

/-- Modelled from the spec: a `UserUUIDStore` record as consumed by
`User.getUUID` (the store implementation is not under src/): per spec
section 4.6 the read path is `get(key) -> Optional<CacheEntry>` carrying the
resolved value and existence metadata, so the record holds an optional `id`
and the `userExists` flag. -/
structure StoreUser where
  id : Option String
  userExists : Bool

/-- Modelled from the spec: the user object resolved by the batcher network
collaborator (spec section 6, bulk-submit), as consumed by `User.fetchUUID`:
an optional `id` and an optional own `emailAddress` field. -/
structure FetchedUser where
  id : Option String
  emailAddress : Option String

/-- External collaborators of the user plugin, all outside src/: the uuid and
email patterns of the common package, the `UserUUIDStore` read path
(`storeGet email = none` models a rejecting `getByEmail`), and the batcher
network fetch (`Except.error` models a rejected batcher request). -/
structure Env where
  isUUID : String → Bool
  isEmail : String → Bool
  storeGet : String → Option StoreUser
  fetch : String → Bool → Except String FetchedUser

/-- Embedding of `User.recordUUID` (user.js lines 155-177) applied to the
object `Object.assign({emailAddress: email}, user)` built by `fetchUUID`
(that object is always truthy, so the `!user` guard cannot fire there):
validates truthiness and pattern of `id` and `emailAddress` before the store
write; the store `add` itself is modelled as always succeeding. -/
def recordUUID (env : Env) (id emailAddress : Option String) : Except String Unit :=
  if !(truthyStr id) then .error "`user.id` is required"
  else if !(env.isUUID (id.getD "")) then .error "`user.id` must be a uuid"
  else if !(truthyStr emailAddress) then .error "`user.emailAddress` is required"
  else if !(env.isEmail (emailAddress.getD "")) then
    .error "`user.emailAddress` must be an email address"
  else .ok ()

/-- Embedding of `User.fetchUUID` (user.js lines 102-109): performs the
batcher network request, records the result
(`Object.assign({emailAddress: email}, user)`: the own `emailAddress` of the
fetched user, when present, wins over the argument), then resolves with
`user.id`. The second component counts batcher (network) invocations. -/
def fetchUUID (env : Env) (email : String) (create : Bool) :
    Except String String × Nat :=
  match env.fetch email create with
  | .error e => (.error e, 1)
  | .ok u =>
    match recordUUID env u.id (some (u.emailAddress.getD email)) with
    | .error e => (.error e, 1)
    | .ok _ => (.ok (u.id.getD ""), 1)

/-- The store path of `User.getUUID` (user.js lines 133-144):
`store.getByEmail(email)` followed by the create/existence check, the id
truthiness check, and resolution with the recorded id. -/
def storeLookup (env : Env) (email : String) (create : Bool) : Except String String :=
  match env.storeGet email with
  | none => .error "No user recorded for specified email"
  | some u =>
    if create && !u.userExists then
      .error "User for specified email cannot be confirmed to exist"
    else if !(truthyStr u.id) then .error "No id recorded for specified user"
    else .ok (u.id.getD "")

/-- Embedding of `User.getUUID` (user.js lines 131-146): the store path is
tried first and any rejection on it is caught (`.catch`), falling back to
`fetchUUID`; the second component counts batcher (network) invocations. -/
def getUUID (env : Env) (email : String) (create : Bool) :
    Except String String × Nat :=
  match storeLookup env email create with
  | .ok v => (.ok v, 0)
  | .error _ => fetchUUID env email create

/-- Resolution value of `asUUID`: a single uuid string, or (for an array
argument) the list of per-element resolutions delivered by `Promise.all`. -/
inductive UVal : Type
  | s (v : String)
  | list (l : List UVal)

/-- The non-array body of `User.asUUID` (user.js lines 81-92): extract a
uuid and resolve it directly when it matches the uuid pattern (unless
`options.force` is set), otherwise extract an email address, reject when it
fails the email pattern, and otherwise enter `getUUID`. -/
def asUUIDResolve (env : Env) (create force : Bool) (u : UserArg) :
    Except String UVal × Nat :=
  let id := extractUUID u
  if !force && env.isUUID id then (.ok (.s id), 0)
  else
    let email := extractEmailAddress u
    if !(env.isEmail email) then
      (.error "Provided user object does not appear to identify a user", 0)
    else
      let r := getUUID env email create
      ((r.1).map UVal.s, r.2)

mutual

/-- Embedding of `User.asUUID` (user.js lines 72-93): reject a falsy `user`,
map arrays element-wise through `Promise.all`, and otherwise run the
uuid/email resolution; the second component counts batcher invocations. -/
def asUUID (env : Env) (create force : Bool) : UserArg → Except String UVal × Nat
  | .nullish => (.error "`user` is required", 0)
  | .str s =>
    if s = "" then (.error "`user` is required", 0)
    else asUUIDResolve env create force (.str s)
  | .obj o => asUUIDResolve env create force (.obj o)
  | .arr l =>
    let r := asUUIDAll env create force l
    ((r.1).map UVal.list, r.2)

/-- The `Promise.all(user.map(...))` arm of `asUUID` (user.js line 78): every
element is resolved (all operations run, so the counts always sum) and the
first rejection, if any, is the one surfaced. -/
def asUUIDAll (env : Env) (create force : Bool) :
    List UserArg → Except String (List UVal) × Nat
  | [] => (.ok [], 0)
  | u :: us =>
    let r := asUUID env create force u
    let rs := asUUIDAll env create force us
    (match r.1, rs.1 with
     | .error e, _ => .error e
     | .ok _, .error e => .error e
     | .ok v, .ok vs => .ok (v :: vs), r.2 + rs.2)

end

/-- C6: a cached positive entry short-circuits the network: if the store
holds a record for the email with a truthy id, and existence is confirmed
whenever the lookup demands it (`options.create`), then `getUUID` resolves
with the cached id and the batcher is never invoked. -/
theorem getUUID_cache_short_circuit (env : Env) (email : String) (create : Bool)
    (u : StoreUser) (i : String)
    (hstore : env.storeGet email = some u) (hid : u.id = some i) (hne : i ≠ "")
    (hexists : create = true → u.userExists = true) :
    getUUID env email create = (.ok i, 0) := by
  have hcond : (create && !u.userExists) = false := by
    cases hc : create with
    | false => rfl
    | true => rw [hexists hc]; rfl
  unfold getUUID storeLookup
  rw [hstore]
  simp [hcond, truthyStr, hid, hne]

/-- Witness for C6: a concrete store holding a cached id next to a failing
network collaborator. -/
theorem getUUID_cache_short_circuit_witness :
    getUUID
      ⟨fun _ => true, fun _ => true, fun _ => some ⟨some "11-22", true⟩,
        fun _ _ => .error "network down"⟩
      "a@b.c" true = (.ok "11-22", 0) :=
  getUUID_cache_short_circuit _ "a@b.c" true ⟨some "11-22", true⟩ "11-22"
    rfl rfl (by decide) (fun _ => rfl)

/-- C7: validation failures reject before the dedup gate or any network
path: a falsy `user` argument, or a non-array argument that is neither a
uuid (per the uuid pattern) nor a valid email address (per the email
pattern), yields a synchronous rejection with zero network invocations. -/
theorem asUUID_validation_rejects (env : Env) (create force : Bool) (u : UserArg)
    (harr : ∀ l, u ≠ .arr l) :
    (truthyArg u = false →
      asUUID env create force u = (.error "`user` is required", 0)) ∧
    (truthyArg u = true → env.isUUID (extractUUID u) = false →
      env.isEmail (extractEmailAddress u) = false →
      asUUID env create force u
        = (.error "Provided user object does not appear to identify a user", 0)) := by
  cases u with
  | str s =>
    constructor
    · intro h
      simp only [truthyArg] at h
      simp at h
      simp [asUUID, h]
    · intro ht hu he
      simp only [truthyArg] at ht
      simp at ht
      simp [asUUID, ht, asUUIDResolve, hu, he]
  | obj o =>
    constructor
    · intro h
      exact Bool.noConfusion h
    · intro _ hu he
      simp [asUUID, asUUIDResolve, hu, he]
  | arr l => exact absurd rfl (harr l)
  | nullish =>
    constructor
    · intro _
      rfl
    · intro h
      exact Bool.noConfusion h

/-- Witness for C7: a string key that neither pattern accepts is rejected
with zero network invocations. -/
theorem asUUID_validation_rejects_witness :
    asUUID
      ⟨fun _ => false, fun _ => false, fun _ => none, fun _ _ => .error "network down"⟩
      false false (.str "not valid email")
      = (.error "Provided user object does not appear to identify a user", 0) :=
  (asUUID_validation_rejects _ false false (.str "not valid email")
    (fun _ h => UserArg.noConfusion h)).2 rfl rfl rfl

theorem asUUIDAll_spec (env : Env) (create force : Bool) (l : List UserArg) :
    (asUUIDAll env create force l).1
        = l.mapM (fun u => (asUUID env create force u).1) ∧
    (asUUIDAll env create force l).2
        = (l.map (fun u => (asUUID env create force u).2)).sum := by
  induction l with
  | nil =>
    simp only [asUUIDAll]
    exact ⟨rfl, rfl⟩
  | cons u us ih =>
    simp only [asUUIDAll]
    rw [List.mapM_cons]
    constructor
    · rw [ih.1]
      cases h1 : (asUUID env create force u).1 with
      | error e => simp [h1, Bind.bind, Except.bind]
      | ok v =>
        cases h2 : us.mapM (fun x => (asUUID env create force x).1) with
        | error e => simp [h1, h2, Bind.bind, Except.bind]
        | ok vs => simp [h1, h2, Bind.bind, Except.bind, pure, Except.pure]
    · rw [ih.2, List.map_cons, List.sum_cons]

/-- C9: `asUUID` on an array maps element-wise (`Promise.all`): the resolved
value is the ordered monadic collection of the per-element results, so all
elements resolving yields the ordered list of their values and any element
rejecting rejects the whole call; the network invocation count is the sum of
the per-element counts. -/
theorem asUUID_array_elementwise (env : Env) (create force : Bool) (l : List UserArg) :
    (asUUID env create force (.arr l)).1
        = (l.mapM (fun u => (asUUID env create force u).1)).map UVal.list ∧
    (asUUID env create force (.arr l)).2
        = (l.map (fun u => (asUUID env create force u).2)).sum := by
  have h := asUUIDAll_spec env create force l
  simp only [asUUID]
  exact ⟨by rw [h.1], h.2⟩

theorem fetchUUID_count (env : Env) (email : String) (create : Bool) :
    (fetchUUID env email create).2 = 1 := by
  unfold fetchUUID
  split
  · rfl
  · split <;> rfl

/-- C10: `getUUID` never rejects because of a store-path outcome: every
rejection of `getUUID` comes with a store-path failure that was caught
(falling back to the network fetch) and the surfaced rejection is exactly
the own rejection of the network fetch. -/
theorem getUUID_rejects_only_on_fetch (env : Env) (email : String) (create : Bool)
    (e : String) (h : (getUUID env email create).1 = .error e) :
    fetchUUID env email create = (.error e, 1) ∧
    ∃ msg, storeLookup env email create = .error msg := by
  unfold getUUID at h
  cases hs : storeLookup env email create with
  | ok v =>
    rw [hs] at h
    exact absurd h (by simp)
  | error msg =>
    rw [hs] at h
    refine ⟨?_, msg, rfl⟩
    have hc := fetchUUID_count env email create
    cases hf : fetchUUID env email create with
    | mk r c =>
      rw [hf] at h hc
      simp only at h hc
      rw [h, hc]

/-- Witness for C10: a concrete store miss combined with a rejecting network
collaborator. -/
theorem getUUID_rejects_only_on_fetch_witness :
    fetchUUID
      ⟨fun _ => true, fun _ => true, fun _ => none, fun _ _ => .error "network down"⟩
      "a@b.c" false = (.error "network down", 1) ∧
    ∃ msg, storeLookup
      ⟨fun _ => true, fun _ => true, fun _ => none, fun _ _ => .error "network down"⟩
      "a@b.c" false = .error msg :=
  getUUID_rejects_only_on_fetch _ "a@b.c" false "network down" rfl

/-- Modelled from the spec: the `oneFlight` dedup gate that decorates
`User.getUUID` (user.js line 131) lives in the common package, which is not
under src/. Per spec section 4.2, the gate keeps a map from fingerprint to
the single outstanding operation; `nextOp` counts operation-factory
invocations, doubling as the identifier of the pending shared result. -/
structure Gate where
  entries : List (String × Nat)
  nextOp : Nat

/-- Modelled from the spec (section 4.2): `enter(fingerprint,
operationFactory)` returns the registered pending result when an entry
exists, and otherwise invokes the factory (incrementing `nextOp`), registers
the fresh pending result and returns it. -/
def enter (g : Gate) (fp : String) : Gate × Nat :=
  match g.entries.lookup fp with
  | some op => (g, op)
  | none => (⟨(fp, g.nextOp) :: g.entries, g.nextOp + 1⟩, g.nextOp)

/-- Modelled from the spec (sections 3 and 4.2): on settlement the In-Flight
Entry for the fingerprint is removed, synchronously with settlement. -/
def settle (g : Gate) (fp : String) : Gate :=
  ⟨g.entries.filter (fun e => !(e.1 == fp)), g.nextOp⟩

/-- N successive admissions of the same fingerprint, collecting the shared
results handed to the callers. -/
def enterN : Gate → String → Nat → Gate × List Nat
  | g, _, 0 => (g, [])
  | g, fp, n + 1 =>
    let r := enter g fp
    let rs := enterN r.1 fp n
    (rs.1, r.2 :: rs.2)

theorem lookup_filter_ne (l : List (String × Nat)) (fp : String) :
    (l.filter (fun e => !(e.1 == fp))).lookup fp = none := by
  induction l with
  | nil => rfl
  | cons e t ih =>
    by_cases h : e.1 = fp
    · simp [List.filter_cons, h, ih]
    · simp only [List.filter_cons]
      have hb : (!(e.1 == fp)) = true := by simp [h]
      rw [hb]
      simp only [if_true, List.lookup]
      have hb2 : (fp == e.1) = false := by
        simp [beq_eq_false_iff_ne]
        exact fun hc => h hc.symm
      rw [hb2]
      exact ih

theorem enter_existing (g : Gate) (fp : String) (op : Nat)
    (h : g.entries.lookup fp = some op) : enter g fp = (g, op) := by
  unfold enter
  rw [h]

theorem enterN_existing (g : Gate) (fp : String) (op : Nat) (n : Nat)
    (h : g.entries.lookup fp = some op) :
    enterN g fp n = (g, List.replicate n op) := by
  induction n with
  | zero => rfl
  | succ k ih =>
    unfold enterN
    rw [enter_existing g fp op h]
    simp only [ih, List.replicate_succ]

/-- C1: at most one operation is in flight per fingerprint: from a gate with
no entry for `fp`, issuing `n + 1` admissions invokes the operation factory
exactly once, every caller receives the very same shared result, the entry
is gone immediately after settlement, and a fresh admission after settlement
invokes the factory anew, yielding a distinct fresh operation. -/
theorem dedup_gate_single_flight (g : Gate) (fp : String) (n : Nat)
    (h : g.entries.lookup fp = none) :
    (enterN g fp (n + 1)).1.nextOp = g.nextOp + 1 ∧
    (enterN g fp (n + 1)).2 = List.replicate (n + 1) g.nextOp ∧
    ((settle (enterN g fp (n + 1)).1 fp).entries.lookup fp = none) ∧
    (enter (settle (enterN g fp (n + 1)).1 fp) fp).2 = g.nextOp + 1 ∧
    (enter (settle (enterN g fp (n + 1)).1 fp) fp).1.nextOp = g.nextOp + 2 := by
  have henter : enter g fp = (⟨(fp, g.nextOp) :: g.entries, g.nextOp + 1⟩, g.nextOp) := by
    unfold enter
    rw [h]
  have hlook : (((fp, g.nextOp) :: g.entries : List (String × Nat)).lookup fp)
      = some g.nextOp := by
    simp [List.lookup]
  have hrec := enterN_existing ⟨(fp, g.nextOp) :: g.entries, g.nextOp + 1⟩ fp g.nextOp n hlook
  have hN : enterN g fp (n + 1)
      = (⟨(fp, g.nextOp) :: g.entries, g.nextOp + 1⟩, List.replicate (n + 1) g.nextOp) := by
    unfold enterN
    rw [henter]
    simp only [hrec, List.replicate_succ]
  rw [hN]
  have hsettle : (settle ⟨(fp, g.nextOp) :: g.entries, g.nextOp + 1⟩ fp).entries.lookup fp
      = none := lookup_filter_ne _ fp
  refine ⟨rfl, rfl, hsettle, ?_, ?_⟩
  · unfold enter
    rw [hsettle]
    rfl
  · unfold enter
    rw [hsettle]
    rfl

/-- Witness for C1: three concurrent admissions on an empty gate. -/
theorem dedup_gate_single_flight_witness :
    (enterN ⟨[], 0⟩ "k" 3).1.nextOp = 0 + 1 ∧
    (enterN ⟨[], 0⟩ "k" 3).2 = List.replicate 3 0 ∧
    ((settle (enterN ⟨[], 0⟩ "k" 3).1 "k").entries.lookup "k" = none) ∧
    (enter (settle (enterN ⟨[], 0⟩ "k" 3).1 "k") "k").2 = 0 + 1 ∧
    (enter (settle (enterN ⟨[], 0⟩ "k" 3).1 "k") "k").1.nextOp = 0 + 2 :=
  dedup_gate_single_flight ⟨[], 0⟩ "k" 2 rfl

/-- Modelled from the spec: the avatar item handed to the AvatarUrlBatcher
fingerprint hooks (the batcher implementation is not under src/; its unit
test at src/packages/plugin-avatar/test/unit/spec/avatar-url-batcher.js
lines 23-26 pins the format): a uuid and a requested size. -/
structure AvatarItem where
  uuid : String
  size : Nat

/-- Modelled from the spec (sections 4.1 and 8): the request fingerprint is
the concatenation `uuid-size`, e.g. `fingerprint({uuid:"uuid1", size:80})`
is the literal string `"uuid1-80"`. -/
def fingerprintRequest (i : AvatarItem) : String :=
  i.uuid ++ "-" ++ toString i.size

/-- Modelled from the spec (section 4.1): the response is fingerprinted the
same way as the request so it can be matched against the pending request. -/
def fingerprintResponse (i : AvatarItem) : String :=
  i.uuid ++ "-" ++ toString i.size

/-- C2: the fingerprint function is deterministic and pure: on
`{uuid:"uuid1", size:80}` it returns exactly `"uuid1-80"`, and any two
inputs with equal uuid and size fields (the full semantically relevant field
set) receive byte-identical fingerprints, on both request and response
shapes. -/
theorem fingerprint_deterministic :
    fingerprintRequest ⟨"uuid1", 80⟩ = "uuid1-80" ∧
    fingerprintResponse ⟨"uuid1", 80⟩ = "uuid1-80" ∧
    ∀ a b : AvatarItem, a.uuid = b.uuid → a.size = b.size →
      fingerprintRequest a = fingerprintRequest b ∧
      fingerprintResponse a = fingerprintRequest a := by
  refine ⟨rfl, rfl, ?_⟩
  intro a b hu hs
  unfold fingerprintRequest fingerprintResponse
  rw [hu, hs]
  exact ⟨rfl, rfl⟩

/-- Witness for C2 at two field-equal items. -/
theorem fingerprint_deterministic_witness :
    fingerprintRequest ⟨"uuid1", 80⟩ = fingerprintRequest ⟨"uuid1", 80⟩ ∧
    fingerprintResponse ⟨"uuid1", 80⟩ = fingerprintRequest ⟨"uuid1", 80⟩ :=
  fingerprint_deterministic.2.2 ⟨"uuid1", 80⟩ ⟨"uuid1", 80⟩ rfl rfl

/-- Modelled from the spec: the per-item view the Result Matcher hands to
`didItemFail` (the batcher implementation is not under src/; its unit test
at avatar-url-batcher.js lines 46-69 pins the behaviour): the requested
size and the optional matched response element carrying the resolved size. -/
structure AvatarUrlResponse where
  size : Option Nat

/-- Item paired with its (possibly absent) response element. -/
structure AvatarUrlItem where
  size : Option Nat
  response : Option AvatarUrlResponse

/-- Rendering of a JS template interpolation of a possibly absent size. -/
def sizeStr : Option Nat → String
  | some n => toString n
  | none => "undefined"

/-- The substitution diagnostic emitted on a degraded match, e.g.
`Avatar: substituted size "256" for "80"` (avatar-url-batcher.js line 53). -/
def substitutionWarning (got requested : Option Nat) : String :=
  "Avatar: substituted size \"" ++ sizeStr got ++ "\" for \"" ++ sizeStr requested ++ "\""

/-- Modelled from the spec (sections 4.5 and 8): `didItemFail` reports
failure exactly when the response element is absent; a present response
whose size deviates from the requested size is a degraded success — not a
failure — with a diagnostic naming the substituted and requested sizes; an
exact match is a success with no diagnostic. The first component is the
failure verdict, the second the emitted diagnostic, if any. -/
def didItemFail (i : AvatarUrlItem) : Bool × Option String :=
  match i.response with
  | none => (true, none)
  | some r =>
    if r.size == i.size then (false, none)
    else (false, some (substitutionWarning r.size i.size))

/-- The Result Matcher applies `didItemFail` to each item independently. -/
def matchItems (l : List AvatarUrlItem) : List (Bool × Option String) :=
  l.map didItemFail

/-- C4: a degraded response is a success with a diagnostic: for
`{size:80, response:{size:256}}` the verdict is `false` and the warning
names the substituted and requested sizes; for the exact match
`{size:80, response:{size:80}}` the verdict is `false` with no
diagnostic. -/
theorem didItemFail_degraded_success :
    didItemFail ⟨some 80, some ⟨some 256⟩⟩
      = (false, some "Avatar: substituted size \"256\" for \"80\"") ∧
    didItemFail ⟨some 80, some ⟨some 80⟩⟩ = (false, none) := by
  constructor <;> rfl

/-- C5: an item with no response element is classified as failed, without
affecting sibling items: wherever such an item sits in the matched batch,
its outcome is failure and the sibling outcomes are exactly what they
would be on their own. -/
theorem didItemFail_missing_response (pre post : List AvatarUrlItem)
    (i : AvatarUrlItem) (h : i.response = none) :
    matchItems (pre ++ i :: post)
      = matchItems pre ++ (true, none) :: matchItems post := by
  unfold matchItems
  rw [List.map_append, List.map_cons]
  have hi : didItemFail i = (true, none) := by
    unfold didItemFail
    rw [h]
  rw [hi]

/-- Witness for C5: the empty item `{}` alone in a batch fails. -/
theorem didItemFail_missing_response_witness :
    matchItems ([] ++ (⟨none, none⟩ : AvatarUrlItem) :: [])
      = matchItems [] ++ (true, none) :: matchItems [] :=
  didItemFail_missing_response [] [] ⟨none, none⟩ rfl

end SparkSdk
